import Mathlib

/-!
Verification of the ofxtools binding core against its design specification.

Source files embedded here:
- src/ofxtools/models/email.py        (MAIL and the email message-set schemas)
- src/ofxtools/ofxalchemy/models.py   (persistence-side aggregates, cross-reference
                                       resolution, currency disambiguation)
- src/tests/test_models_msgsets.py    (containment test fixtures)

The generic binder/renderer (ofxtools.models.base, ofxtools.Types) and the parser
Element type are not under src/; where a claim depends on them they are modelled
from the specification, and each such definition is marked Modelled from the spec.
Everything else is translated from the source.
-/

/-! # Element trees

Modelled from the spec (section 6, input tree contract): a node is a tag, an
optional text, and an ordered list of children; no attributes. -/

structure Elem where
  tag : String
  text : Option String
  children : List Elem
  deriving Repr

mutual

def elemBeq : Elem → Elem → Bool
  | ⟨t1, x1, c1⟩, ⟨t2, x2, c2⟩ => t1 == t2 && x1 == x2 && elemsBeq c1 c2

def elemsBeq : List Elem → List Elem → Bool
  | [], [] => true
  | a :: as, b :: bs => elemBeq a b && elemsBeq as bs
  | _, _ => false

end

mutual

theorem elemBeq_refl : ∀ a, elemBeq a a = true
  | ⟨t, x, c⟩ => by simp [elemBeq, elemsBeq_refl c]

theorem elemsBeq_refl : ∀ as, elemsBeq as as = true
  | [] => rfl
  | a :: as => by simp [elemsBeq, elemBeq_refl a, elemsBeq_refl as]

end

mutual

theorem eq_of_elemBeq : ∀ a b, elemBeq a b = true → a = b
  | ⟨t1, x1, c1⟩, ⟨t2, x2, c2⟩, h => by
    simp only [elemBeq, Bool.and_eq_true, beq_iff_eq] at h
    obtain ⟨⟨h1, h2⟩, h3⟩ := h
    have hc := eq_of_elemsBeq c1 c2 h3
    simp [h1, h2, hc]

theorem eq_of_elemsBeq : ∀ as bs, elemsBeq as bs = true → as = bs
  | [], [], _ => rfl
  | a :: as, b :: bs, h => by
    simp only [elemsBeq, Bool.and_eq_true] at h
    have h1 := eq_of_elemBeq a b h.1
    have h2 := eq_of_elemsBeq as bs h.2
    simp [h1, h2]

end

instance : DecidableEq Elem := fun a b =>
  if h : elemBeq a b = true then
    .isTrue (eq_of_elemBeq a b h)
  else
    .isFalse (fun hab => h (hab ▸ elemBeq_refl a))

/-- Element.find with a direct-child path ('./TAG'): first child carrying the tag. -/
def findChild (tag : String) (e : Elem) : Option Elem :=
  e.children.find? (fun c => c.tag == tag)

/-- Renaming pass over a child list: retag the first element carrying tag src. -/
def renameFirstIn (src dst : String) : List Elem → List Elem
  | [] => []
  | c :: cs => if c.tag = src then { c with tag := dst } :: cs else c :: renameFirstIn src dst cs

/-- Rename the first direct child tagged src to dst, as MAIL.groom/ungroom do after
their element.find('./FROM') / ('./FRM') lookup (src/ofxtools/models/email.py). -/
def renameFirstChild (src dst : String) (e : Elem) : Elem :=
  { e with children := renameFirstIn src dst e.children }

/-! # Field type system

Modelled from the spec (section 4.1): ofxtools.Types is not under src/.  Typed
scalar descriptors with bidirectional text/value conversion: parse fails on
length/format violation, render fails when the value is outside the domain. -/

inductive Value where
  | vstr (s : String)
  | vbool (b : Bool)
  | vdatetime (n : Nat)
  deriving DecidableEq, Repr

structure FieldType where
  parse : String → Option Value
  render : Value → Option String

/-- Modelled from the spec: bounded-length text (String(maxlen) in the schemas). -/
def ofxString (maxlen : Nat) : FieldType where
  parse := fun t => if t.length ≤ maxlen then some (.vstr t) else none
  render := fun v =>
    match v with
    | .vstr s => if s.length ≤ maxlen then some s else none
    | _ => none

/-- Modelled from the spec (sections 4.1 and 8): the boolean type maps the literal
"Y" to true and "N" to false; any other literal is a type error. -/
def ofxBool : FieldType where
  parse := fun t =>
    if t = "Y" then some (.vbool true)
    else if t = "N" then some (.vbool false)
    else none
  render := fun v =>
    match v with
    | .vbool b => some (if b then "Y" else "N")
    | _ => none

def digitChar (n : Nat) : Char := Char.ofNat (48 + n % 10)

/-- Fixed-width decimal numeral, most significant digit first. -/
def renderDigits : Nat → Nat → List Char
  | 0, _ => []
  | w + 1, n => renderDigits w (n / 10) ++ [digitChar n]

def parseDigitsAux : List Char → Nat → Option Nat
  | [], acc => some acc
  | c :: cs, acc =>
    if 48 ≤ c.toNat ∧ c.toNat ≤ 57 then parseDigitsAux cs (acc * 10 + (c.toNat - 48))
    else none

/-- Modelled from the spec (section 4.1): the date/time type, kept as the packed
14-digit YYYYMMDDHHMMSS numeral the wire format carries. -/
def ofxDateTime : FieldType where
  parse := fun t =>
    if t.length = 14 then (parseDigitsAux t.data 0).map .vdatetime else none
  render := fun v =>
    match v with
    | .vdatetime n => if n < 10 ^ 14 then some ⟨renderDigits 14 n⟩ else none
    | _ => none

theorem renderDigits_length : ∀ w n, (renderDigits w n).length = w
  | 0, _ => rfl
  | w + 1, n => by
    simp [renderDigits, renderDigits_length w (n / 10)]

theorem parseDigitsAux_append (xs ys : List Char) (acc : Nat) :
    parseDigitsAux (xs ++ ys) acc =
      match parseDigitsAux xs acc with
      | some a => parseDigitsAux ys a
      | none => none := by
  induction xs generalizing acc with
  | nil => simp [parseDigitsAux]
  | cons c cs ih =>
    by_cases h : 48 ≤ c.toNat ∧ c.toNat ≤ 57
    · simp [parseDigitsAux, h, ih]
    · simp [parseDigitsAux, h]

theorem digitChar_toNat (n : Nat) : (digitChar n).toNat = 48 + n % 10 := by
  have h10 : n % 10 < 10 := Nat.mod_lt _ (by decide)
  unfold digitChar
  interval_cases h : n % 10 <;> simp [h]

theorem parseDigitsAux_renderDigits :
    ∀ (w n acc : Nat), n < 10 ^ w →
      parseDigitsAux (renderDigits w n) acc = some (acc * 10 ^ w + n)
  | 0, n, acc, h => by
    have : n = 0 := by simpa using Nat.lt_one_iff.mp (by simpa using h)
    simp [renderDigits, parseDigitsAux, this]
  | w + 1, n, acc, h => by
    have hdiv : n / 10 < 10 ^ w := by
      have hpow : (10 : Nat) ^ (w + 1) = 10 ^ w * 10 := pow_succ 10 w
      rw [hpow] at h
      exact Nat.div_lt_of_lt_mul (by omega)
    rw [renderDigits, parseDigitsAux_append,
      parseDigitsAux_renderDigits w (n / 10) acc hdiv]
    have hd : (digitChar n).toNat = 48 + n % 10 := digitChar_toNat n
    have hcond : 48 ≤ (digitChar n).toNat ∧ (digitChar n).toNat ≤ 57 := by
      rw [hd]; omega
    simp only [parseDigitsAux, hd]
    rw [if_pos (show 48 ≤ 48 + n % 10 ∧ 48 + n % 10 ≤ 57 by omega)]
    have harith : (acc * 10 ^ w + n / 10) * 10 + (48 + n % 10 - 48) =
        acc * 10 ^ (w + 1) + n := by
      rw [pow_succ]
      have hmod : n / 10 * 10 + n % 10 = n := by omega
      have hexp : (acc * 10 ^ w + n / 10) * 10 + (48 + n % 10 - 48) =
          acc * (10 ^ w * 10) + (n / 10 * 10 + n % 10) := by ring_nf; omega
      rw [hexp, hmod]
    simp only [parseDigitsAux, harith]

/-- Right-invertibility of a field type: parse undoes a successful render. -/
def FieldInv (ft : FieldType) : Prop :=
  ∀ v s, ft.render v = some s → ft.parse s = some v

theorem fieldInv_ofxString (n : Nat) : FieldInv (ofxString n) := by
  intro v s h
  cases v with
  | vstr t =>
    simp only [ofxString] at h
    by_cases ht : t.length ≤ n
    · simp [ht] at h
      subst h
      simp [ofxString, ht]
    · simp [ht] at h
  | vbool b => simp [ofxString] at h
  | vdatetime m => simp [ofxString] at h

theorem fieldInv_ofxBool : FieldInv ofxBool := by
  intro v s h
  cases v with
  | vstr t => simp [ofxBool] at h
  | vbool b =>
    simp only [ofxBool] at h
    cases b with
    | true =>
      simp at h
      subst h
      simp [ofxBool]
    | false =>
      simp at h
      subst h
      simp [ofxBool]
  | vdatetime m => simp [ofxBool] at h

theorem fieldInv_ofxDateTime : FieldInv ofxDateTime := by
  intro v s h
  cases v with
  | vstr t => simp [ofxDateTime] at h
  | vbool b => simp [ofxDateTime] at h
  | vdatetime n =>
    simp only [ofxDateTime] at h
    by_cases hn : n < 10 ^ 14
    · rw [if_pos hn] at h
      injection h with h'
      subst h'
      have hlen : (String.mk (renderDigits 14 n)).length = 14 := by
        show (renderDigits 14 n).length = 14
        exact renderDigits_length 14 n
      have hdata : (String.mk (renderDigits 14 n)).data = renderDigits 14 n := rfl
      simp only [ofxDateTime, hlen, if_pos, hdata]
      rw [parseDigitsAux_renderDigits 14 n 0 hn]
      simp
    · rw [if_neg hn] at h
      exact absurd h (by simp)

/-! # Generic binder / renderer for scalar-member schemas

Modelled from the spec (section 4.3): ofxtools.models.base is not under src/.
A schema carries a tag, ordered scalar member declarations, and the pre/post
tree hooks (groom applied before flattening, ungroom reversing renames on
output).  Members carry the bound attribute name, the specification tag the
binder matches in the (groomed) tree, the field type, and the required flag. -/

structure Member where
  name : String
  tag : String
  ftype : FieldType
  required : Bool

structure Schema where
  tag : String
  members : List Member
  groom : Elem → Elem
  ungroom : Elem → Elem

inductive BindErr where
  | unknownAggregate (tag : String)
  | missingRequired (name : String)
  | invalidContainment (tag : String)
  | valueType (name : String)
  deriving DecidableEq, Repr

/-- Modelled from the spec (section 4.3 step 3): a scalar member reads its single
same-named child's text through its field type; an absent child binds to none. -/
def parseMember (m : Member) (cs : List Elem) : Except BindErr (Option Value) :=
  match cs.find? (fun c => c.tag == m.tag) with
  | none => .ok none
  | some c =>
    match c.text with
    | none => .error (.valueType m.name)
    | some t =>
      match m.ftype.parse t with
      | none => .error (.valueType m.name)
      | some v => .ok (some v)

def flattenMembers : List Member → List Elem → Except BindErr (List (Option Value))
  | [], _ => .ok []
  | m :: ms, cs =>
    match parseMember m cs with
    | .error e => .error e
    | .ok v =>
      match flattenMembers ms cs with
      | .error e => .error e
      | .ok vs => .ok (v :: vs)

/-- Modelled from the spec (section 4.3 step 5): every required member must be
present and non-null after flattening, else MissingRequiredError naming it. -/
def checkRequired : List Member → List (Option Value) → Except BindErr Unit
  | [], _ => .ok ()
  | m :: ms, [] =>
    if m.required then .error (.missingRequired m.name) else checkRequired ms []
  | m :: ms, v :: vs =>
    if m.required && v.isNone then .error (.missingRequired m.name)
    else checkRequired ms vs

/-- Modelled from the spec (section 4.3): groom, flatten against the member list,
validate required-ness; the bound instance is the ordered value list. -/
def bindScalar (s : Schema) (e : Elem) : Except BindErr (List (Option Value)) :=
  let e2 := s.groom e
  match flattenMembers s.members e2.children with
  | .error err => .error err
  | .ok vals =>
    match checkRequired s.members vals with
    | .error err => .error err
    | .ok _ => .ok vals

/-- Modelled from the spec (section 4.3): rendering emits one child per present
member, in declared schema order, rendering each value through its field type. -/
def renderMembers : List Member → List (Option Value) → Except BindErr (List Elem)
  | _, [] => .ok []
  | [], _ :: _ => .ok []
  | m :: ms, v :: vs =>
    match renderMembers ms vs with
    | .error e => .error e
    | .ok rest =>
      match v with
      | none => .ok rest
      | some x =>
        match m.ftype.render x with
        | none => .error (.valueType m.name)
        | some t => .ok (⟨m.tag, some t, []⟩ :: rest)

/-- Modelled from the spec (section 4.3): rendering is the structural inverse,
with the ungroom pass restoring specification-exact tags on output. -/
def renderScalar (s : Schema) (vals : List (Option Value)) : Except BindErr Elem :=
  match renderMembers s.members vals with
  | .error e => .error e
  | .ok cs => .ok (s.ungroom ⟨s.tag, none, cs⟩)

theorem renderMembers_tags :
    ∀ ms vals cs, renderMembers ms vals = .ok cs →
      ∀ c ∈ cs, c.tag ∈ ms.map Member.tag
  | _, [], cs, h => by
    simp only [renderMembers] at h
    injection h with h
    subst h
    intro c hc
    simp at hc
  | [], _ :: _, cs, h => by
    simp only [renderMembers] at h
    injection h with h
    subst h
    intro c hc
    simp at hc
  | m :: ms, v :: vs, cs, h => by
    simp only [renderMembers] at h
    split at h
    · exact absurd h (by simp)
    · rename_i rest hrest
      have ih := renderMembers_tags ms vs rest hrest
      split at h
      · injection h with h
        subst h
        intro c hc
        simp only [List.map_cons, List.mem_cons]
        exact Or.inr (ih c hc)
      · rename_i x hveq
        split at h
        · exact absurd h (by simp)
        · rename_i t hren
          injection h with h
          subst h
          intro c hc
          simp only [List.mem_cons] at hc
          simp only [List.map_cons, List.mem_cons]
          cases hc with
          | inl hc => subst hc; exact Or.inl rfl
          | inr hc => exact Or.inr (ih c hc)

theorem parseMember_skip (m : Member) (c : Elem) (cs : List Elem)
    (h : c.tag ≠ m.tag) : parseMember m (c :: cs) = parseMember m cs := by
  simp only [parseMember, List.find?]
  have : (c.tag == m.tag) = false := by simpa using h
  rw [this]

theorem parseMember_of_render :
    ∀ ms vals cs i, (hi : i < ms.length) → (hv : i < vals.length) →
      renderMembers ms vals = .ok cs →
      (ms.map Member.tag).Nodup →
      (∀ m ∈ ms, FieldInv m.ftype) →
      parseMember ms[i] cs = .ok vals[i]
  | [], vals, cs, i, hi, hv, hr, hnd, hinv => by simp at hi
  | m :: ms, [], cs, i, hi, hv, hr, hnd, hinv => by simp at hv
  | m :: ms, v :: vs, cs, i, hi, hv, hr, hnd, hinv => by
    simp only [renderMembers] at hr
    split at hr
    · exact absurd hr (by simp)
    · rename_i rest hrest
      simp only [List.map_cons, List.nodup_cons] at hnd
      obtain ⟨hm, hnd'⟩ := hnd
      have hinv' : ∀ m' ∈ ms, FieldInv m'.ftype := fun m' hm' => hinv m' (by simp [hm'])
      split at hr
      case _ =>
        injection hr with hr
        subst hr
        cases i with
        | zero =>
          simp only [List.getElem_cons_zero]
          have hnone : rest.find? (fun c => c.tag == m.tag) = none := by
            apply List.find?_eq_none.mpr
            intro c hc
            have := renderMembers_tags ms vs rest hrest c hc
            simp only [beq_iff_eq]
            intro hceq
            exact hm (hceq ▸ this)
          simp [parseMember, hnone]
        | succ j =>
          simp only [List.getElem_cons_succ]
          exact parseMember_of_render ms vs rest j (by simpa using hi)
            (by simpa using hv) hrest hnd' hinv'
      case _ x =>
        split at hr
        · exact absurd hr (by simp)
        · rename_i t hren
          injection hr with hr
          subst hr
          cases i with
          | zero =>
            simp only [List.getElem_cons_zero]
            have hparse : m.ftype.parse t = some x :=
              hinv m (by simp) x t hren
            simp [parseMember, List.find?, hparse]
          | succ j =>
            simp only [List.getElem_cons_succ]
            have hj : j < ms.length := by simpa using hi
            have htagne : (⟨m.tag, some t, []⟩ : Elem).tag ≠ (ms[j]).tag := by
              intro hcontra
              apply hm
              have hc2 : m.tag = (ms[j]).tag := hcontra
              rw [hc2]
              exact List.mem_map_of_mem Member.tag (List.getElem_mem _)
            rw [parseMember_skip _ _ _ htagne]
            exact parseMember_of_render ms vs rest j (by simpa using hi)
              (by simpa using hv) hrest hnd' hinv'

theorem flattenMembers_of_pointwise :
    ∀ ms vals cs, ms.length = vals.length →
      (∀ i, (hi : i < ms.length) → (hv : i < vals.length) →
        parseMember ms[i] cs = .ok vals[i]) →
      flattenMembers ms cs = .ok vals
  | [], [], cs, _, _ => rfl
  | [], v :: vs, cs, hlen, _ => by simp at hlen
  | m :: ms, [], cs, hlen, _ => by simp at hlen
  | m :: ms, v :: vs, cs, hlen, hp => by
    have h0 := hp 0 (by simp) (by simp)
    simp only [List.getElem_cons_zero] at h0
    have hrec := flattenMembers_of_pointwise ms vs cs (by simpa using hlen)
      (fun i hi hv => by
        have := hp (i + 1) (by simpa using hi) (by simpa using hv)
        simpa using this)
    simp [flattenMembers, h0, hrec]

theorem checkRequired_ok :
    ∀ ms vals, ms.length = vals.length →
      (∀ i, (hi : i < ms.length) → (hv : i < vals.length) →
        ms[i].required = true → (vals[i]).isSome) →
      checkRequired ms vals = .ok ()
  | [], [], _, _ => rfl
  | [], v :: vs, hlen, _ => by simp at hlen
  | m :: ms, [], hlen, _ => by simp at hlen
  | m :: ms, v :: vs, hlen, hreq => by
    have h0 : ¬(m.required && v.isNone) = true := by
      intro hcontra
      simp only [Bool.and_eq_true] at hcontra
      have := hreq 0 (by simp) (by simp) (by simpa using hcontra.1)
      simp only [List.getElem_cons_zero] at this
      rw [Option.isNone_iff_eq_none.mp hcontra.2] at this
      simp at this
    have hrec := checkRequired_ok ms vs (by simpa using hlen)
      (fun i hi hv hr => by
        have := hreq (i + 1) (by simpa using hi) (by simpa using hv) (by simpa using hr)
        simpa using this)
    simp [checkRequired, h0, hrec]

/-- Round-trip for the modelled binder: when every field type is right-invertible,
member tags are distinct, every required member is present, and the schema's
groom hook cancels its ungroom hook on the rendered tree, then rendering an
instance and binding the resulting tree reconstructs the instance exactly. -/
theorem bindScalar_renderScalar (s : Schema) (vals : List (Option Value)) (cs : List Elem)
    (hlen : s.members.length = vals.length)
    (hnodup : (s.members.map Member.tag).Nodup)
    (hinv : ∀ m ∈ s.members, FieldInv m.ftype)
    (hreq : ∀ i, (hi : i < s.members.length) → (hv : i < vals.length) →
      (s.members[i]).required = true → (vals[i]).isSome)
    (hr : renderMembers s.members vals = .ok cs)
    (hg : s.groom (s.ungroom ⟨s.tag, none, cs⟩) = ⟨s.tag, none, cs⟩) :
    renderScalar s vals = .ok (s.ungroom ⟨s.tag, none, cs⟩) ∧
      bindScalar s (s.ungroom ⟨s.tag, none, cs⟩) = .ok vals := by
  constructor
  · simp [renderScalar, hr]
  · have hflat : flattenMembers s.members cs = .ok vals :=
      flattenMembers_of_pointwise s.members vals cs hlen
        (fun i hi hv => parseMember_of_render s.members vals cs i hi hv hr hnodup hinv)
    have hchk : checkRequired s.members vals = .ok () := checkRequired_ok _ _ hlen hreq
    simp [bindScalar, hg, hflat, hchk]

/-! # The MAIL schema (src/ofxtools/models/email.py, lines 34-72)

Members in declaration order, with their types and required flags as declared.
The member frm binds the specification tag FROM: MAIL.groom renames the first
direct FROM child to FRM (deep-copying first), MAIL.ungroom renames it back. -/

def mailMembers : List Member :=
  [⟨"userid", "USERID", ofxString 32, true⟩,
   ⟨"dtcreated", "DTCREATED", ofxDateTime, true⟩,
   ⟨"frm", "FRM", ofxString 32, true⟩,
   ⟨"to", "TO", ofxString 32, true⟩,
   ⟨"subject", "SUBJECT", ofxString 60, true⟩,
   ⟨"msgbody", "MSGBODY", ofxString 10000, true⟩,
   ⟨"incimages", "INCIMAGES", ofxBool, true⟩,
   ⟨"usehtml", "USEHTML", ofxBool, true⟩]

def mailSchema : Schema :=
  ⟨"MAIL", mailMembers, renameFirstChild "FROM" "FRM", renameFirstChild "FRM" "FROM"⟩

/-- Instance values of a fully populated MAIL aggregate, in member order. -/
def mailVals (u : String) (dt : Nat) (f t sub body : String) (b1 b2 : Bool) :
    List (Option Value) :=
  [some (.vstr u), some (.vdatetime dt), some (.vstr f), some (.vstr t),
   some (.vstr sub), some (.vstr body), some (.vbool b1), some (.vbool b2)]

/-- Tree a fully populated MAIL instance renders to, after the ungroom pass
restored the specification-exact tag FROM. -/
def mailRendered (u : String) (dt : Nat) (f t sub body : String) (b1 b2 : Bool) : Elem :=
  ⟨"MAIL", none,
   [⟨"USERID", some u, []⟩, ⟨"DTCREATED", some ⟨renderDigits 14 dt⟩, []⟩,
    ⟨"FROM", some f, []⟩, ⟨"TO", some t, []⟩, ⟨"SUBJECT", some sub, []⟩,
    ⟨"MSGBODY", some body, []⟩, ⟨"INCIMAGES", some (if b1 then "Y" else "N"), []⟩,
    ⟨"USEHTML", some (if b2 then "Y" else "N"), []⟩]⟩

/-- C1: for every schema whose field types are right-invertible, with distinct
member tags, every required member present, and groom cancelling ungroom on the
rendered tree, binding the rendered tree reconstructs the instance on all
modeled fields; in particular every valid MAIL instance renders to a tree whose
FROM tag is restored (the binder matches it back to the member frm via the
groom rename), whose boolean members carry the literals "Y"/"N", and binding
that tree yields the original instance exactly. -/
theorem mail_roundtrip :
    (∀ (s : Schema) (vals : List (Option Value)) (cs : List Elem),
      s.members.length = vals.length →
      (s.members.map Member.tag).Nodup →
      (∀ m ∈ s.members, FieldInv m.ftype) →
      (∀ i, (hi : i < s.members.length) → (hv : i < vals.length) →
        (s.members[i]).required = true → (vals[i]).isSome) →
      renderMembers s.members vals = .ok cs →
      s.groom (s.ungroom ⟨s.tag, none, cs⟩) = ⟨s.tag, none, cs⟩ →
      renderScalar s vals = .ok (s.ungroom ⟨s.tag, none, cs⟩) ∧
        bindScalar s (s.ungroom ⟨s.tag, none, cs⟩) = .ok vals) ∧
    (∀ (u f t sub body : String) (dt : Nat) (b1 b2 : Bool),
      u.length ≤ 32 → f.length ≤ 32 → t.length ≤ 32 →
      sub.length ≤ 60 → body.length ≤ 10000 → dt < 10 ^ 14 →
      renderScalar mailSchema (mailVals u dt f t sub body b1 b2) =
          .ok (mailRendered u dt f t sub body b1 b2) ∧
        bindScalar mailSchema (mailRendered u dt f t sub body b1 b2) =
          .ok (mailVals u dt f t sub body b1 b2) ∧
        (mailRendered u dt f t sub body b1 b2).children.map Elem.tag =
          ["USERID", "DTCREATED", "FROM", "TO", "SUBJECT", "MSGBODY",
           "INCIMAGES", "USEHTML"] ∧
        (mailRendered u dt f t sub body b1 b2).children.map Elem.text =
          [some u, some ⟨renderDigits 14 dt⟩, some f, some t, some sub, some body,
           some (if b1 then "Y" else "N"), some (if b2 then "Y" else "N")]) := by
  constructor
  · intro s vals cs hlen hnodup hinv hreq hr hg
    exact bindScalar_renderScalar s vals cs hlen hnodup hinv hreq hr hg
  · intro u f t sub body dt b1 b2 hu hf ht hsub hbody hdt
    have hr : renderMembers mailSchema.members (mailVals u dt f t sub body b1 b2) =
        .ok [⟨"USERID", some u, []⟩, ⟨"DTCREATED", some ⟨renderDigits 14 dt⟩, []⟩,
             ⟨"FRM", some f, []⟩, ⟨"TO", some t, []⟩, ⟨"SUBJECT", some sub, []⟩,
             ⟨"MSGBODY", some body, []⟩, ⟨"INCIMAGES", some (if b1 then "Y" else "N"), []⟩,
             ⟨"USEHTML", some (if b2 then "Y" else "N"), []⟩] := by
      have hdt2 : dt < 100000000000000 := by
        have h14 : (10 : Nat) ^ 14 = 100000000000000 := by norm_num
        rw [h14] at hdt
        exact hdt
      simp [mailSchema, mailMembers, mailVals, renderMembers,
        ofxString, ofxBool, ofxDateTime, hu, hf, ht, hsub, hbody, hdt, hdt2]
    have hun : mailSchema.ungroom
        ⟨mailSchema.tag, none,
         [⟨"USERID", some u, []⟩, ⟨"DTCREATED", some ⟨renderDigits 14 dt⟩, []⟩,
          ⟨"FRM", some f, []⟩, ⟨"TO", some t, []⟩, ⟨"SUBJECT", some sub, []⟩,
          ⟨"MSGBODY", some body, []⟩, ⟨"INCIMAGES", some (if b1 then "Y" else "N"), []⟩,
          ⟨"USEHTML", some (if b2 then "Y" else "N"), []⟩]⟩ =
        mailRendered u dt f t sub body b1 b2 := rfl
    have hg : mailSchema.groom (mailSchema.ungroom
        ⟨mailSchema.tag, none,
         [⟨"USERID", some u, []⟩, ⟨"DTCREATED", some ⟨renderDigits 14 dt⟩, []⟩,
          ⟨"FRM", some f, []⟩, ⟨"TO", some t, []⟩, ⟨"SUBJECT", some sub, []⟩,
          ⟨"MSGBODY", some body, []⟩, ⟨"INCIMAGES", some (if b1 then "Y" else "N"), []⟩,
          ⟨"USEHTML", some (if b2 then "Y" else "N"), []⟩]⟩) =
        ⟨mailSchema.tag, none,
         [⟨"USERID", some u, []⟩, ⟨"DTCREATED", some ⟨renderDigits 14 dt⟩, []⟩,
          ⟨"FRM", some f, []⟩, ⟨"TO", some t, []⟩, ⟨"SUBJECT", some sub, []⟩,
          ⟨"MSGBODY", some body, []⟩, ⟨"INCIMAGES", some (if b1 then "Y" else "N"), []⟩,
          ⟨"USEHTML", some (if b2 then "Y" else "N"), []⟩]⟩ := rfl
    have hinv : ∀ m ∈ mailSchema.members, FieldInv m.ftype := by
      intro m hm
      simp only [mailSchema, mailMembers, List.mem_cons, List.not_mem_nil, or_false] at hm
      rcases hm with h | h | h | h | h | h | h | h <;> subst h
      · exact fieldInv_ofxString 32
      · exact fieldInv_ofxDateTime
      · exact fieldInv_ofxString 32
      · exact fieldInv_ofxString 32
      · exact fieldInv_ofxString 60
      · exact fieldInv_ofxString 10000
      · exact fieldInv_ofxBool
      · exact fieldInv_ofxBool
    have hreq : ∀ i, (hi : i < mailSchema.members.length) →
        (hv : i < (mailVals u dt f t sub body b1 b2).length) →
        (mailSchema.members[i]).required = true →
        ((mailVals u dt f t sub body b1 b2)[i]).isSome := by
      intro i hi hv _
      have hi8 : i < 8 := by
        simp only [mailSchema, mailMembers, List.length_cons, List.length_nil] at hi
        omega
      interval_cases i <;> simp [mailVals]
    have hmain := bindScalar_renderScalar mailSchema
      (mailVals u dt f t sub body b1 b2) _ rfl (by decide) hinv hreq hr hg
    rw [hun] at hmain
    refine ⟨hmain.1, hmain.2, rfl, rfl⟩

/-- Witness for C1: Scenario A of the spec, USERID "x", FROM "a@b", TO "c@d",
SUBJECT "hi", MSGBODY "body", INCIMAGES "N" (false), USEHTML "Y" (true). -/
theorem mail_roundtrip_witness :
    bindScalar mailSchema (mailRendered "x" 20070115000000 "a@b" "c@d" "hi" "body" false true) =
        .ok (mailVals "x" 20070115000000 "a@b" "c@d" "hi" "body" false true) ∧
      renderScalar mailSchema (mailVals "x" 20070115000000 "a@b" "c@d" "hi" "body" false true) =
        .ok (mailRendered "x" 20070115000000 "a@b" "c@d" "hi" "body" false true) := by
  have h := mail_roundtrip.2 "x" "a@b" "c@d" "hi" "body" 20070115000000 false true
    (by decide) (by decide) (by decide) (by decide) (by decide) (by norm_num)
  exact ⟨h.2.1, h.1⟩

/-! # List aggregates: EMAILMSGSRQV1 (src/ofxtools/models/email.py, lines 138-141)

The allowed-tag set is transcribed from the source dataTags declaration. -/

def emailmsgsrqv1DataTags : List String := ["MAILTRNRQ", "GETMIMETRNRQ", "MAILSYNCRQ"]

/-- Modelled from the spec (section 4.3 step 3): List.from_etree is not under
src/.  A list aggregate binds children in encountered order against the child
binder, rejecting any child whose tag is outside the allowed-tag set. -/
def bindListChildren {α : Type} (allowed : List String) (bindChild : Elem → Except BindErr α) :
    List Elem → Except BindErr (List α)
  | [] => .ok []
  | c :: cs =>
    if c.tag ∈ allowed then
      match bindChild c with
      | .error e => .error e
      | .ok x =>
        match bindListChildren allowed bindChild cs with
        | .error e => .error e
        | .ok xs => .ok (x :: xs)
    else .error (.invalidContainment c.tag)

def bindListAggregate {α : Type} (allowed : List String) (bindChild : Elem → Except BindErr α)
    (e : Elem) : Except BindErr (List α) :=
  bindListChildren allowed bindChild e.children

theorem bindListChildren_ok {α : Type} (allowed : List String) (f : Elem → α) :
    ∀ cs, (∀ c ∈ cs, c.tag ∈ allowed) →
      bindListChildren allowed (fun c => .ok (f c)) cs = .ok (cs.map f) := by
  intro cs
  induction cs with
  | nil => intro _; rfl
  | cons c cs ih =>
    intro h
    have hc := h c (by simp)
    have hrec := ih (fun c' hc' => h c' (by simp [hc']))
    simp [bindListChildren, hc, hrec]

theorem bindListChildren_err {α : Type} (allowed : List String) (f : Elem → α) :
    ∀ cs, (∃ c ∈ cs, c.tag ∉ allowed) →
      ∃ tg, tg ∉ allowed ∧
        bindListChildren allowed (fun c => .ok (f c)) cs = .error (.invalidContainment tg) := by
  intro cs
  induction cs with
  | nil => rintro ⟨c, hc, _⟩; simp at hc
  | cons c cs ih =>
    rintro ⟨c', hc', htag⟩
    by_cases hc : c.tag ∈ allowed
    · have hex : ∃ d ∈ cs, d.tag ∉ allowed := by
        rcases List.mem_cons.mp hc' with h1 | h1
        · subst h1; exact absurd hc htag
        · exact ⟨c', h1, htag⟩
      obtain ⟨tg, h1, h2⟩ := ih hex
      exact ⟨tg, h1, by simp [bindListChildren, hc, h2]⟩
    · exact ⟨c.tag, hc, by simp [bindListChildren, hc]⟩

/-- C4: binding a list aggregate over the EMAILMSGSRQV1 allowed-tag set
{MAILTRNRQ, GETMIMETRNRQ, MAILSYNCRQ} succeeds when every child carries an
allowed tag, in any order, yielding the bound children in input order; any
child with a tag outside the set makes binding fail with
InvalidContainmentError. -/
theorem emailmsgsrqv1_containment {α : Type} :
    (∀ (f : Elem → α) (e : Elem),
        (∀ c ∈ e.children, c.tag ∈ emailmsgsrqv1DataTags) →
        bindListAggregate emailmsgsrqv1DataTags (fun c => .ok (f c)) e =
          .ok (e.children.map f)) ∧
    (∀ (f : Elem → α) (e : Elem),
        (∃ c ∈ e.children, c.tag ∉ emailmsgsrqv1DataTags) →
        ∃ tg, tg ∉ emailmsgsrqv1DataTags ∧
          bindListAggregate emailmsgsrqv1DataTags (fun c => .ok (f c)) e =
            .error (.invalidContainment tg)) := by
  constructor
  · intro f e h
    exact bindListChildren_ok emailmsgsrqv1DataTags f e.children h
  · intro f e h
    exact bindListChildren_err emailmsgsrqv1DataTags f e.children h

/-- Scrambled-order input for EMAILMSGSRQV1, after the test fixture. -/
def emailScrambled : Elem :=
  ⟨"EMAILMSGSRQV1", none,
   [⟨"GETMIMETRNRQ", none, []⟩, ⟨"MAILSYNCRQ", none, []⟩, ⟨"MAILTRNRQ", none, []⟩]⟩

/-- Scrambled-order input with a disallowed MAILTRNRS child appended. -/
def emailScrambledBad : Elem :=
  ⟨"EMAILMSGSRQV1", none,
   [⟨"GETMIMETRNRQ", none, []⟩, ⟨"MAILSYNCRQ", none, []⟩, ⟨"MAILTRNRQ", none, []⟩,
    ⟨"MAILTRNRS", none, []⟩]⟩

/-- Witness for C4: Scenario B, one of each allowed tag in scrambled order binds
in input order; appending a MAILTRNRS child fails containment. -/
theorem emailmsgsrqv1_containment_witness :
    bindListAggregate emailmsgsrqv1DataTags (fun c => .ok (Elem.tag c)) emailScrambled =
        .ok ["GETMIMETRNRQ", "MAILSYNCRQ", "MAILTRNRQ"] ∧
      ∃ tg, tg ∉ emailmsgsrqv1DataTags ∧
        bindListAggregate emailmsgsrqv1DataTags (fun c => .ok (Elem.tag c)) emailScrambledBad =
          .error (.invalidContainment tg) := by
  constructor
  · have h := (emailmsgsrqv1_containment (α := String)).1 Elem.tag emailScrambled (by decide)
    simpa [emailScrambled] using h
  · exact (emailmsgsrqv1_containment (α := String)).2 Elem.tag emailScrambledBad
      ⟨⟨"MAILTRNRS", none, []⟩, by decide, by decide⟩

/-! # Required-member enforcement (spec section 4.3 step 5, MAIL declarations) -/

theorem checkRequired_err :
    ∀ (ms : List Member) (vals : List (Option Value)) (i : Nat),
      (hi : i < ms.length) → (hv : i < vals.length) →
      ms[i].required = true → vals[i] = none →
      (∀ j, j < i → (hjm : j < ms.length) → (hjv : j < vals.length) →
        ms[j].required = true → (vals[j]).isSome) →
      checkRequired ms vals = .error (.missingRequired ms[i].name)
  | [], _, i, hi, _, _, _, _ => by simp at hi
  | _ :: _, [], i, _, hv, _, _, _ => by simp at hv
  | m :: ms, v :: vs, 0, hi, hv, hreq, hnone, _ => by
    simp only [List.getElem_cons_zero] at hreq hnone ⊢
    subst hnone
    simp [checkRequired, hreq]
  | m :: ms, v :: vs, j + 1, hi, hv, hreq, hnone, hprev => by
    have hhead : (m.required && v.isNone) = false := by
      cases hmr : m.required with
      | false => simp
      | true =>
        have hs := hprev 0 (by omega) (by simp) (by simp) (by simpa using hmr)
        simp only [List.getElem_cons_zero] at hs
        cases v with
        | none => simp at hs
        | some x => simp
    have hrec := checkRequired_err ms vs j (by simpa using hi) (by simpa using hv)
      (by simpa using hreq) (by simpa using hnone)
      (fun k hk hkm hkv hr => by
        have := hprev (k + 1) (by omega) (by simpa using hkm) (by simpa using hkv)
          (by simpa using hr)
        simpa using this)
    simp only [List.getElem_cons_succ]
    simp [checkRequired, hhead, hrec]

/-- C5: when flattening succeeds, a required member that flattened to none makes
binding fail with MissingRequiredError naming that member (the first such one),
and no instance is produced; when every required member is present, binding
succeeds with optional members simply absent and no error. -/
theorem required_member_enforcement :
    (∀ (s : Schema) (e : Elem) (vals : List (Option Value)) (i : Nat),
        (hi : i < s.members.length) → (hv : i < vals.length) →
        flattenMembers s.members (s.groom e).children = .ok vals →
        (s.members[i]).required = true → vals[i] = none →
        (∀ j, j < i → (hjm : j < s.members.length) → (hjv : j < vals.length) →
          (s.members[j]).required = true → (vals[j]).isSome) →
        bindScalar s e = .error (.missingRequired (s.members[i]).name)) ∧
    (∀ (s : Schema) (e : Elem) (vals : List (Option Value)),
        flattenMembers s.members (s.groom e).children = .ok vals →
        s.members.length = vals.length →
        (∀ i, (hi : i < s.members.length) → (hv : i < vals.length) →
          (s.members[i]).required = true → (vals[i]).isSome) →
        bindScalar s e = .ok vals) := by
  constructor
  · intro s e vals i hi hv hflat hreq hnone hprev
    have hchk := checkRequired_err s.members vals i hi hv hreq hnone hprev
    simp [bindScalar, hflat, hchk]
  · intro s e vals hflat hlen hreq
    have hchk := checkRequired_ok s.members vals hlen hreq
    simp [bindScalar, hflat, hchk]

/-- Fully populated MAIL input except the required SUBJECT member is absent. -/
def mailMissingSubject : Elem :=
  ⟨"MAIL", none,
   [⟨"USERID", some "x", []⟩, ⟨"DTCREATED", some "20070115000000", []⟩,
    ⟨"FROM", some "a@b", []⟩, ⟨"TO", some "c@d", []⟩,
    ⟨"MSGBODY", some "body", []⟩, ⟨"INCIMAGES", some "N", []⟩,
    ⟨"USEHTML", some "Y", []⟩]⟩

/-- Fixture schema with one required and one optional scalar member, standing in
for the many source schemas that mix the two (the modeled email schemas declare
all their scalars required, e.g. MAILTRNRS leaves only its sub-aggregate
optional). -/
def optTestSchema : Schema :=
  ⟨"OPTTEST",
   [⟨"url", "URL", ofxString 255, true⟩, ⟨"memo", "MEMO", ofxString 255, false⟩],
   id, id⟩

/-- Witness for C5: omitting required SUBJECT from a MAIL input fails naming the
member subject; omitting the optional member of a two-member schema succeeds
with that member absent. -/
theorem required_member_enforcement_witness :
    bindScalar mailSchema mailMissingSubject = .error (.missingRequired "subject") ∧
      bindScalar optTestSchema ⟨"OPTTEST", none, [⟨"URL", some "http", []⟩]⟩ =
        .ok [some (.vstr "http"), none] := by
  constructor
  · have h := required_member_enforcement.1 mailSchema mailMissingSubject
      [some (.vstr "x"), some (.vdatetime 20070115000000), some (.vstr "a@b"),
       some (.vstr "c@d"), none, some (.vstr "body"), some (.vbool false),
       some (.vbool true)]
      4 (by decide) (by decide) (by rfl) (by rfl) (by rfl)
      (fun j hj hjm hjv hr => by interval_cases j <;> simp)
    simpa [mailSchema, mailMembers] using h
  · have h := required_member_enforcement.2 optTestSchema
      ⟨"OPTTEST", none, [⟨"URL", some "http", []⟩]⟩
      [some (.vstr "http"), none]
      (by rfl) (by rfl)
      (fun i hi hv hr => by
        have hi2 : i < 2 := by simpa [optTestSchema] using hi
        interval_cases i
        · simp
        · simp [optTestSchema] at hr)
    exact h

/-! # Persistence-side model (src/ofxtools/ofxalchemy/models.py)

Attribute values are Python scalars: strings (element text), integers (surrogate
ids injected as foreign keys), or None.  An entity is a persisted or transient
aggregate instance: its class name, the base table its hierarchy is queried
through, its surrogate id (None while transient and unflushed), and its
attribute dictionary.  The session is the shared store consulted by
Aggregate.get and extended by Aggregate.get_or_create. -/

deriving instance DecidableEq for Except

inductive PyVal where
  | pstr (s : String)
  | pint (n : Nat)
  | pnone
  deriving DecidableEq, Repr

abbrev Attrs := List (String × PyVal)

def lookupAttr (a : Attrs) (k : String) : Option PyVal :=
  (a.find? (fun kv => kv.1 == k)).map (·.2)

/-- Dictionary update: extra_attrs[k] = v. -/
def setAttr (a : Attrs) (k : String) (v : PyVal) : Attrs :=
  if (a.find? (fun kv => kv.1 == k)).isSome then
    a.map (fun kv => if kv.1 == k then (k, v) else kv)
  else a ++ [(k, v)]

def pyOfText (t : Option String) : PyVal :=
  match t with
  | some s => .pstr s
  | none => .pnone

def pyOfId (i : Option Nat) : PyVal :=
  match i with
  | some n => .pint n
  | none => .pnone

structure Entity where
  cls : String
  table : String
  eid : Option Nat
  attrs : Attrs
  deriving DecidableEq, Repr

structure Session where
  entities : List Entity
  nextId : Nat
  deriving DecidableEq, Repr

def emptySession : Session := ⟨[], 0⟩

/-- Python/SQLAlchemy failure kinds surfaced by the modelled code.  The spec
names keyError UnknownAggregateError and noResultFound ReferenceResolutionError. -/
inductive PyErr where
  | keyError (k : String)
  | attributeError (m : String)
  | nameError (n : String)
  | valueError (m : String)
  | typeError (m : String)
  | noResultFound
  | multipleResultsFound
  | invalidContainment (tag : String)
  deriving DecidableEq, Repr

/-- Filter predicate of DBSession.query(cls).filter_by(**pk): the entity belongs
to the queried hierarchy's table and carries every filtered attribute value. -/
def entityMatches (table : String) (pk : Attrs) (ent : Entity) : Bool :=
  ent.table == table && pk.all (fun kv => lookupAttr ent.attrs kv.1 == some kv.2)

def sessionQuery (s : Session) (table : String) (pk : Attrs) : List Entity :=
  s.entities.filter (entityMatches table pk)

/-- Query.one(): exactly one row, else NoResultFound / MultipleResultsFound. -/
def queryOne (s : Session) (table : String) (pk : Attrs) : Except PyErr Entity :=
  match sessionQuery s table pk with
  | [] => .error .noResultFound
  | [ent] => .ok ent
  | _ :: _ :: _ => .error .multipleResultsFound

/-- Projection {k: attrs[k] for k in pks}; None when a key is missing, which
Aggregate.get turns into the ValueError of models.py lines 81-84. -/
def pkProject (pks : List String) (attrs : Attrs) : Option Attrs :=
  match pks with
  | [] => some []
  | k :: ks =>
    match lookupAttr attrs k, pkProject ks attrs with
    | some v, some rest => some ((k, v) :: rest)
    | _, _ => none

/-- Aggregate.get (models.py lines 76-86): project the primary-key attributes
out of the arguments, then query the store and demand exactly one row. -/
def aggregateGet (table : String) (pks : List String) (attrs : Attrs) (s : Session) :
    Except PyErr Entity :=
  match pkProject pks attrs with
  | none => .error (.valueError "Required attributes not satisfied by arguments")
  | some pk => queryOne s table pk

/-- Aggregate.get_or_create (models.py lines 88-99): return the existing
instance on a hit; on NoResultFound construct the instance from all given
attributes and add it to the session (the surrogate id models the one the
store assigns when the pending instance is flushed by the next query); any
other error, including MultipleResultsFound, propagates. -/
def aggregateGetOrCreate (cls table : String) (pks : List String) (attrs : Attrs)
    (s : Session) : Except PyErr (Entity × Session) :=
  match aggregateGet table pks attrs s with
  | .ok ent => .ok (ent, s)
  | .error .noResultFound =>
    let ent : Entity := ⟨cls, table, some s.nextId, attrs⟩
    .ok (ent, ⟨s.entities ++ [ent], s.nextId + 1⟩)
  | .error e => .error e

/-! # Tree search and removal helpers (ElementTree operations used by the hooks) -/

mutual

/-- Element.find('.//TAG'): first descendant (not self) with the tag, in
document (preorder) order. -/
def findDescIn (tag : String) : List Elem → Option Elem
  | [] => none
  | c :: cs =>
    if c.tag = tag then some c
    else
      match findDescUnder tag c with
      | some r => some r
      | none => findDescIn tag cs

def findDescUnder (tag : String) : Elem → Option Elem
  | ⟨_, _, children⟩ => findDescIn tag children

end

/-- Element.find('*/TAG'): first grandchild with the tag, in document order. -/
def findGrandchildIn (tag : String) : List Elem → Option Elem
  | [] => none
  | c :: cs =>
    match c.children.find? (fun g => g.tag == tag) with
    | some g => some g
    | none => findGrandchildIn tag cs

def findGrandchild (tag : String) (e : Elem) : Option Elem :=
  findGrandchildIn tag e.children

/-- Element.remove(x): drop the first child equal to x. -/
def removeFirstEq : List Elem → Elem → List Elem
  | [], _ => []
  | c :: cs, x => if c = x then cs else c :: removeFirstEq cs x

/-- Drop the first child carrying the tag. -/
def removeFirstTaggedIn (tag : String) : List Elem → List Elem
  | [] => []
  | c :: cs => if c.tag = tag then cs else c :: removeFirstTaggedIn tag cs

mutual

/-- In-place update of the first descendant carrying the tag: rewrite it with f,
reporting whether a descendant was found. -/
def mapFirstDescIn (tag : String) (f : Elem → Elem) : List Elem → List Elem × Bool
  | [] => ([], false)
  | c :: cs =>
    if c.tag = tag then (f c :: cs, true)
    else
      match mapFirstDescUnder tag f c with
      | (c', true) => (c' :: cs, true)
      | (_, false) =>
        let r := mapFirstDescIn tag f cs
        (c :: r.1, r.2)

def mapFirstDescUnder (tag : String) (f : Elem → Elem) : Elem → Elem × Bool
  | ⟨t, x, children⟩ =>
    let r := mapFirstDescIn tag f children
    (⟨t, x, r.1⟩, r.2)

end

/-! # SECID._do_secid (src/ofxtools/ofxalchemy/models.py, lines 337-355)

Finds the SECID aggregate anywhere under the element, reads its UNIQUEIDTYPE
and UNIQUEID children, resolves the pair through SECINFO.get against the
session (pks are uniqueid, uniqueidtype), records the hit's surrogate id as
extra_attrs['secinfo_id'], and removes the two id elements from the SECID node
in place (the source mutates the caller's element; the returned tree is the
caller's tree after the call).  A missing SECID or missing id child raises
AttributeError on the None result; a miss in the store propagates
NoResultFound from Query.one() — the spec's ReferenceResolutionError. -/

def secidDoSecid (element : Elem) (extra : Attrs) (s : Session) :
    Except PyErr (Elem × Attrs × Session) :=
  match findDescIn "SECID" element.children with
  | none => .error (.attributeError "NoneType has no attribute find")
  | some secid =>
    match findChild "UNIQUEIDTYPE" secid, findChild "UNIQUEID" secid with
    | some uidty, some uid =>
      match aggregateGet "secinfo" ["uniqueid", "uniqueidtype"]
          [("uniqueidtype", pyOfText uidty.text), ("uniqueid", pyOfText uid.text)] s with
      | .error e => .error e
      | .ok secinfo =>
        .ok ({ element with children :=
                (mapFirstDescIn "SECID" (fun c =>
                  { c with children := removeFirstEq (removeFirstEq c.children uidty) uid })
                  element.children).1 },
             setAttr extra "secinfo_id" (pyOfId secinfo.eid), s)
    | none, _ => .error (.attributeError "NoneType has no attribute text")
    | _, none => .error (.attributeError "NoneType has no attribute text")

/-- C2: with a SECID aggregate embedded in the element, resolution looks up the
(uniqueid, uniqueidtype) pair in the security master: when the store holds
exactly one matching SECINFO entity, binding stores a reference to exactly that
entity as secinfo_id and the session comes back unchanged (nothing is created);
when no matching entity exists, binding fails hard with NoResultFound, the
spec's ReferenceResolutionError. -/
theorem secid_reference_resolution
    (element secid uidty uid : Elem) (extra : Attrs) (s : Session)
    (hsec : findDescIn "SECID" element.children = some secid)
    (hty : findChild "UNIQUEIDTYPE" secid = some uidty)
    (hid : findChild "UNIQUEID" secid = some uid) :
    (∀ ent, sessionQuery s "secinfo"
        [("uniqueid", pyOfText uid.text), ("uniqueidtype", pyOfText uidty.text)] = [ent] →
      secidDoSecid element extra s =
        .ok ({ element with children :=
                (mapFirstDescIn "SECID" (fun c =>
                  { c with children := removeFirstEq (removeFirstEq c.children uidty) uid })
                  element.children).1 },
             setAttr extra "secinfo_id" (pyOfId ent.eid), s)) ∧
    (sessionQuery s "secinfo"
        [("uniqueid", pyOfText uid.text), ("uniqueidtype", pyOfText uidty.text)] = [] →
      secidDoSecid element extra s = .error .noResultFound) := by
  have hpk : pkProject ["uniqueid", "uniqueidtype"]
      [("uniqueidtype", pyOfText uidty.text), ("uniqueid", pyOfText uid.text)] =
      some [("uniqueid", pyOfText uid.text), ("uniqueidtype", pyOfText uidty.text)] := by
    simp [pkProject, lookupAttr]
  constructor
  · intro ent hq
    simp only [secidDoSecid, hsec, hty, hid, aggregateGet, hpk, queryOne, hq]
  · intro hq
    simp only [secidDoSecid, hsec, hty, hid, aggregateGet, hpk, queryOne, hq]

/-- Security-master entity fixture: a stock known by (uniqueid, uniqueidtype). -/
def secinfoEnt : Entity :=
  ⟨"STOCKINFO", "secinfo", some 7,
   [("uniqueid", .pstr "123456789"), ("uniqueidtype", .pstr "CUSIP"),
    ("secname", .pstr "Acme")]⟩

def sessionWithSec : Session := ⟨[secinfoEnt], 8⟩

/-- Investment-transaction fixture embedding a SECID for the session's stock. -/
def invtranWithSecid : Elem :=
  ⟨"BUYSTOCK", none,
   [⟨"INVBUY", none,
     [⟨"INVTRAN", none, [⟨"FITID", some "t1", []⟩]⟩,
      ⟨"SECID", none,
       [⟨"UNIQUEID", some "123456789", []⟩, ⟨"UNIQUEIDTYPE", some "CUSIP", []⟩]⟩]⟩]⟩

/-- Witness for C2: the fixture resolves against the populated session, storing
secinfo_id 7 and stripping the SECID ids in place; against the empty session
the identical input fails with NoResultFound. -/
theorem secid_reference_resolution_witness :
    secidDoSecid invtranWithSecid [] sessionWithSec =
        .ok (⟨"BUYSTOCK", none,
              [⟨"INVBUY", none,
                [⟨"INVTRAN", none, [⟨"FITID", some "t1", []⟩]⟩,
                 ⟨"SECID", none, []⟩]⟩]⟩,
             [("secinfo_id", .pint 7)], sessionWithSec) ∧
      secidDoSecid invtranWithSecid [] emptySession = .error .noResultFound := by
  constructor
  · have h := (secid_reference_resolution invtranWithSecid
      ⟨"SECID", none,
       [⟨"UNIQUEID", some "123456789", []⟩, ⟨"UNIQUEIDTYPE", some "CUSIP", []⟩]⟩
      ⟨"UNIQUEIDTYPE", some "CUSIP", []⟩ ⟨"UNIQUEID", some "123456789", []⟩
      [] sessionWithSec rfl rfl rfl).1 secinfoEnt (by decide)
    exact h
  · exact (secid_reference_resolution invtranWithSecid
      ⟨"SECID", none,
       [⟨"UNIQUEID", some "123456789", []⟩, ⟨"UNIQUEIDTYPE", some "CUSIP", []⟩]⟩
      ⟨"UNIQUEIDTYPE", some "CUSIP", []⟩ ⟨"UNIQUEID", some "123456789", []⟩
      [] emptySession rfl rfl rfl).2 (by decide)

/-! # OPTINFO._do_secid (src/ofxtools/ofxalchemy/models.py, lines 474-494)

The SECID describing the option's underlying security is removed (when present)
without any store lookup: no SECINFO is resolved, no reference is stored, and
absence from the security master raises nothing. -/

def optinfoDoSecid (element : Elem) (extra : Attrs) (s : Session) :
    Except PyErr (Elem × Attrs × Session) :=
  match findChild "SECID" element with
  | some secid =>
    .ok ({ element with children := removeFirstEq element.children secid }, extra, s)
  | none => .ok (element, extra, s)

theorem removeFirstEq_of_findChild (tag : String) :
    ∀ (cs : List Elem) (c : Elem), cs.find? (fun d => d.tag == tag) = some c →
      removeFirstEq cs c = removeFirstTaggedIn tag cs := by
  intro cs
  induction cs with
  | nil => intro c h; simp at h
  | cons d ds ih =>
    intro c h
    by_cases hd : d.tag = tag
    · rw [List.find?_cons_of_pos _ (by simpa using hd)] at h
      injection h with h
      subst h
      simp [removeFirstEq, removeFirstTaggedIn, hd]
    · rw [List.find?_cons_of_neg _ (by simpa using hd)] at h
      have hctag : c.tag = tag := by
        have := List.find?_some h
        simpa using this
      have hdc : d ≠ c := fun hcontra => hd (by rw [hcontra, hctag])
      simp [removeFirstEq, removeFirstTaggedIn, hd, hdc, ih c h]

theorem removeFirstTaggedIn_of_none (tag : String) :
    ∀ (cs : List Elem), cs.find? (fun d => d.tag == tag) = none →
      removeFirstTaggedIn tag cs = cs := by
  intro cs
  induction cs with
  | nil => intro _; rfl
  | cons d ds ih =>
    intro h
    rw [List.find?_cons] at h
    by_cases hd : d.tag = tag
    · simp [hd] at h
    · simp only [removeFirstTaggedIn, hd, if_neg]
      have : (d.tag == tag) = false := by simpa using hd
      rw [this] at h
      simp [ih h]

/-- Option fixture whose underlying SECID matches nothing in any store. -/
def optinfoUnderlying : Elem :=
  ⟨"OPTINFO", none,
   [⟨"OPTTYPE", some "CALL", []⟩,
    ⟨"SECID", none,
     [⟨"UNIQUEID", some "999999999", []⟩, ⟨"UNIQUEIDTYPE", some "CUSIP", []⟩]⟩,
    ⟨"STRIKEPRICE", some "25", []⟩]⟩

/-- C10: OPTINFO binding drops the underlying's SECID child (when present)
without consulting the security master: for every element, attribute set and
session the hook succeeds, stores nothing, and leaves the session untouched —
in particular it succeeds on an element whose (uniqueid, uniqueidtype) matches
no SECINFO entity and for which the generic SECID hook fails with
NoResultFound. -/
theorem optinfo_underlying_secid_discarded :
    (∀ (e : Elem) (extra : Attrs) (s : Session),
      optinfoDoSecid e extra s =
        .ok ({ e with children := removeFirstTaggedIn "SECID" e.children }, extra, s)) ∧
    (optinfoDoSecid optinfoUnderlying [] emptySession =
        .ok (⟨"OPTINFO", none,
              [⟨"OPTTYPE", some "CALL", []⟩, ⟨"STRIKEPRICE", some "25", []⟩]⟩,
             [], emptySession) ∧
      secidDoSecid optinfoUnderlying [] emptySession = .error .noResultFound) := by
  refine ⟨?_, by decide, by decide⟩
  intro e extra s
  cases hf : e.children.find? (fun d => d.tag == "SECID") with
  | none =>
    have h1 := removeFirstTaggedIn_of_none "SECID" e.children hf
    simp only [optinfoDoSecid, findChild, hf, h1]
    obtain ⟨et, ex, ec⟩ := e
    rfl
  | some c =>
    have h1 := removeFirstEq_of_findChild "SECID" e.children c hf
    simp [optinfoDoSecid, findChild, hf, h1]

/-! # ORIGCURRENCY._do_origcurrency (src/ofxtools/ofxalchemy/models.py, lines 185-207)

Looks up the CURRENCY and ORIGCURRENCY grandchildren ('*/CURRENCY' paths).  When
both are present the source raises ValueError with a message formatted from
elem.tag — but the hook's parameter is named element and no name elem is bound,
so evaluating the message raises NameError instead of the intended error.  With
at most one present, curtype records the tag of the one found (or None). -/

def origcurrencyDoOrigcurrency (element : Elem) (extra : Attrs) :
    Except PyErr (Elem × Attrs) :=
  let currency := findGrandchild "CURRENCY" element
  let origcurrency := findGrandchild "ORIGCURRENCY" element
  if currency.isSome && origcurrency.isSome then
    .error (.nameError "elem")
  else
    let curtype :=
      match currency with
      | some c => some c
      | none => origcurrency
    let ctv :=
      match curtype with
      | some c => PyVal.pstr c.tag
      | none => PyVal.pnone
    .ok (element, setAttr extra "curtype" ctv)

/-- Buy-transaction fixture whose INVBUY wrapper carries both currency variants. -/
def tranBothCurrencies : Elem :=
  ⟨"BUYSTOCK", none,
   [⟨"INVBUY", none,
     [⟨"INVTRAN", none, [⟨"FITID", some "t2", []⟩]⟩,
      ⟨"CURRENCY", none,
       [⟨"CURSYM", some "EUR", []⟩, ⟨"CURRATE", some "1.1", []⟩]⟩,
      ⟨"ORIGCURRENCY", none,
       [⟨"CURSYM", some "GBP", []⟩, ⟨"CURRATE", some "0.8", []⟩]⟩]⟩]⟩

/-- Same fixture with only CURRENCY present. -/
def tranOneCurrency : Elem :=
  ⟨"BUYSTOCK", none,
   [⟨"INVBUY", none,
     [⟨"INVTRAN", none, [⟨"FITID", some "t2", []⟩]⟩,
      ⟨"CURRENCY", none,
       [⟨"CURSYM", some "EUR", []⟩, ⟨"CURRATE", some "1.1", []⟩]⟩]⟩]⟩

/-- Same fixture with only ORIGCURRENCY present. -/
def tranOrigCurrency : Elem :=
  ⟨"BUYSTOCK", none,
   [⟨"INVBUY", none,
     [⟨"INVTRAN", none, [⟨"FITID", some "t2", []⟩]⟩,
      ⟨"ORIGCURRENCY", none,
       [⟨"CURSYM", some "GBP", []⟩, ⟨"CURRATE", some "0.8", []⟩]⟩]⟩]⟩

/-- Same fixture with neither currency variant. -/
def tranNoCurrency : Elem :=
  ⟨"BUYSTOCK", none,
   [⟨"INVBUY", none, [⟨"INVTRAN", none, [⟨"FITID", some "t2", []⟩]⟩]⟩]⟩

/-- C3 (code bug): with both CURRENCY and ORIGCURRENCY present the hook fails —
but with NameError on the unbound name elem (the raise statement's message
formats elem.tag while the parameter is named element), not the intended
ValueError the spec calls AmbiguousCurrencyError; with exactly one variant
present curtype is set to that variant's tag, and with neither it is None. -/
theorem origcurrency_disambiguation :
    origcurrencyDoOrigcurrency tranBothCurrencies [] = .error (.nameError "elem") ∧
      origcurrencyDoOrigcurrency tranOneCurrency [] =
        .ok (tranOneCurrency, [("curtype", .pstr "CURRENCY")]) ∧
      origcurrencyDoOrigcurrency tranOrigCurrency [] =
        .ok (tranOrigCurrency, [("curtype", .pstr "ORIGCURRENCY")]) ∧
      origcurrencyDoOrigcurrency tranNoCurrency [] =
        .ok (tranNoCurrency, [("curtype", .pnone)]) := by
  refine ⟨by decide, by decide, by decide, by decide⟩

/-! # Mutation of the caller's tree by the hooks (C9)

A Python hook either deep-copies its argument (MAIL.groom / MAIL.ungroom,
email.py lines 52 and 66) or operates on the caller's object in place
(SECID._do_secid removes the id elements from the found SECID, models.py lines
353-354).  Each call is modelled with the tree the caller observes afterwards:
for the deep-copying hooks that is the unchanged input, for the in-place hook
it is the returned tree (the removes run only after the store lookup succeeds,
so every error path leaves the caller's tree unchanged). -/

/-- Pair (returned tree, caller's tree after the call) for MAIL.groom. -/
def mailGroomCall (e : Elem) : Elem × Elem :=
  (renameFirstChild "FROM" "FRM" e, e)

/-- Pair (returned tree, caller's tree after the call) for MAIL.ungroom. -/
def mailUngroomCall (e : Elem) : Elem × Elem :=
  (renameFirstChild "FRM" "FROM" e, e)

/-- Tree the caller observes after SECID._do_secid. -/
def secidCallerTreeAfter (element : Elem) (extra : Attrs) (s : Session) : Elem :=
  match secidDoSecid element extra s with
  | .ok (e2, _, _) => e2
  | .error _ => element

/-- Counterexample to C9: a successful SECID._do_secid call leaves the caller's
tree different from what it was before the call — the UNIQUEID/UNIQUEIDTYPE
elements have been removed in place. -/
theorem secid_mutates_callers_tree :
    secidCallerTreeAfter invtranWithSecid [] sessionWithSec ≠ invtranWithSecid := by
  decide

/-- C9 (amended): the tag-renaming hooks MAIL.groom/ungroom deep-copy and never
mutate the caller's tree; the SECID pre-flatten hook instead operates in place —
after a successful call the caller's tree is the returned stripped tree, and
only the error paths leave it unchanged. -/
theorem binding_tree_mutation_discipline :
    (∀ e, (mailGroomCall e).2 = e) ∧
      (∀ e, (mailUngroomCall e).2 = e) ∧
      (∀ element extra s e2 a2 s2,
        secidDoSecid element extra s = .ok (e2, a2, s2) →
        secidCallerTreeAfter element extra s = e2) ∧
      (∀ element extra s err,
        secidDoSecid element extra s = .error err →
        secidCallerTreeAfter element extra s = element) := by
  refine ⟨fun e => rfl, fun e => rfl, ?_, ?_⟩
  · intro element extra s e2 a2 s2 h
    simp [secidCallerTreeAfter, h]
  · intro element extra s err h
    simp [secidCallerTreeAfter, h]

/-- Witness for C9 (amended): the groom hook leaves a concrete caller's tree
unchanged, while a concrete successful SECID hook call leaves the caller with
the stripped tree. -/
theorem binding_tree_mutation_discipline_witness :
    (mailGroomCall ⟨"MAIL", none, [⟨"FROM", some "a@b", []⟩]⟩).2 =
        ⟨"MAIL", none, [⟨"FROM", some "a@b", []⟩]⟩ ∧
      secidCallerTreeAfter invtranWithSecid [] sessionWithSec =
        ⟨"BUYSTOCK", none,
         [⟨"INVBUY", none,
           [⟨"INVTRAN", none, [⟨"FITID", some "t1", []⟩]⟩,
            ⟨"SECID", none, []⟩]⟩]⟩ := by
  constructor
  · exact binding_tree_mutation_discipline.1 ⟨"MAIL", none, [⟨"FROM", some "a@b", []⟩]⟩
  · exact binding_tree_mutation_discipline.2.2.1 invtranWithSecid [] sessionWithSec
      ⟨"BUYSTOCK", none,
       [⟨"INVBUY", none,
         [⟨"INVTRAN", none, [⟨"FITID", some "t1", []⟩]⟩,
          ⟨"SECID", none, []⟩]⟩]⟩
      [("secinfo_id", .pint 7)] sessionWithSec (by decide)

/-! # Natural-key idempotence of Aggregate.get_or_create (C6) -/

theorem pkProject_map_fst :
    ∀ (pks : List String) (attrs pk : Attrs), pkProject pks attrs = some pk →
      pk.map Prod.fst = pks
  | [], attrs, pk, h => by
    simp only [pkProject] at h
    injection h with h
    subst h
    rfl
  | k :: ks, attrs, pk, h => by
    simp only [pkProject] at h
    split at h
    · rename_i v rest hl hrec
      injection h with h
      subst h
      simp [pkProject_map_fst ks attrs rest hrec]
    · exact absurd h (by simp)

theorem pkProject_lookup :
    ∀ (pks : List String) (attrs pk : Attrs), pkProject pks attrs = some pk →
      ∀ kv ∈ pk, lookupAttr attrs kv.1 = some kv.2
  | [], attrs, pk, h => by
    simp only [pkProject] at h
    injection h with h
    subst h
    intro kv hkv
    simp at hkv
  | k :: ks, attrs, pk, h => by
    simp only [pkProject] at h
    split at h
    · rename_i v rest hl hrec
      injection h with h
      subst h
      intro kv hkv
      rcases List.mem_cons.mp hkv with h1 | h1
      · subst h1; exact hl
      · exact pkProject_lookup ks attrs rest hrec kv h1
    · exact absurd h (by simp)

theorem pkProject_of_lookup :
    ∀ (pks : List String) (pk attrs : Attrs), pk.map Prod.fst = pks →
      (∀ kv ∈ pk, lookupAttr attrs kv.1 = some kv.2) →
      pkProject pks attrs = some pk
  | [], pk, attrs, hf, _ => by
    have : pk = [] := by simpa using hf
    subst this
    rfl
  | k :: ks, pk, attrs, hf, hl => by
    cases pk with
    | nil => simp at hf
    | cons kv rest =>
      simp only [List.map_cons, List.cons.injEq] at hf
      obtain ⟨hk, hks⟩ := hf
      have hhead : lookupAttr attrs k = some kv.2 := by
        rw [← hk]
        exact hl kv (by simp)
      have hrec := pkProject_of_lookup ks rest attrs hks
        (fun kv' hkv' => hl kv' (by simp [hkv']))
      simp only [pkProject, hhead, hrec]
      subst hk
      rfl

theorem entityMatches_of_lookup (table cls : String) (eid : Option Nat) (attrs pk : Attrs)
    (hl : ∀ kv ∈ pk, lookupAttr attrs kv.1 = some kv.2) :
    entityMatches table pk ⟨cls, table, eid, attrs⟩ = true := by
  simp only [entityMatches, Bool.and_eq_true, beq_self_eq_true, true_and]
  rw [List.all_eq_true]
  intro kv hkv
  simp [hl kv hkv]

theorem entityMatches_lookup {table : String} {pk : Attrs} {ent : Entity}
    (h : entityMatches table pk ent = true) :
    ent.table = table ∧ ∀ kv ∈ pk, lookupAttr ent.attrs kv.1 = some kv.2 := by
  simp only [entityMatches, Bool.and_eq_true, beq_iff_eq, List.all_eq_true] at h
  obtain ⟨h1, h2⟩ := h
  refine ⟨h1, fun kv hkv => ?_⟩
  have := h2 kv hkv
  simpa using this

theorem getOrCreate_pkProject (cls table : String) (pks : List String)
    (attrs pk : Attrs) (s : Session) (e1 : Entity) (s1 : Session)
    (h : pkProject pks attrs = some pk)
    (hok : aggregateGetOrCreate cls table pks attrs s = .ok (e1, s1)) :
    pkProject pks e1.attrs = some pk := by
  simp only [aggregateGetOrCreate, aggregateGet, h, queryOne] at hok
  cases hq : sessionQuery s table pk with
  | nil =>
    rw [hq] at hok
    simp only at hok
    injection hok with hok
    have he : e1 = ⟨cls, table, some s.nextId, attrs⟩ := (congrArg Prod.fst hok).symm
    subst he
    exact h
  | cons ent rest =>
    cases rest with
    | nil =>
      rw [hq] at hok
      simp only at hok
      injection hok with hok
      have he : e1 = ent := (congrArg Prod.fst hok).symm
      subst he
      have hmem : e1 ∈ sessionQuery s table pk := by rw [hq]; simp
      have hmatch : entityMatches table pk e1 = true :=
        (List.mem_filter.mp hmem).2
      obtain ⟨-, hl⟩ := entityMatches_lookup hmatch
      exact pkProject_of_lookup pks pk e1.attrs (pkProject_map_fst pks attrs pk h) hl
    | cons ent2 rest2 =>
      rw [hq] at hok
      exact absurd hok (by simp)

/-- C6: under the store's per-key uniqueness invariant, a get_or_create call
with given natural-key values returns an entity carrying those key values, a
second call supplying the same key values returns exactly the same entity with
the session unchanged (at most one live instance per key within the session),
and any call supplying different key values returns a distinct entity. -/
theorem getOrCreate_natural_key
    (cls cls2 table : String) (pks : List String)
    (attrs attrs2 pk : Attrs) (s : Session)
    (h1 : pkProject pks attrs = some pk)
    (h2 : pkProject pks attrs2 = some pk)
    (huniq : (sessionQuery s table pk).length ≤ 1) :
    ∃ e1 s1, aggregateGetOrCreate cls table pks attrs s = .ok (e1, s1) ∧
      aggregateGetOrCreate cls2 table pks attrs2 s1 = .ok (e1, s1) ∧
      pkProject pks e1.attrs = some pk ∧
      (∀ cls' attrs' pk' e2 s2,
        pkProject pks attrs' = some pk' → pk' ≠ pk →
        aggregateGetOrCreate cls' table pks attrs' s1 = .ok (e2, s2) →
        e2 ≠ e1) := by
  have hdistinct : ∀ (s1 : Session) (e1 : Entity), pkProject pks e1.attrs = some pk →
      ∀ cls' attrs' pk' e2 s2,
        pkProject pks attrs' = some pk' → pk' ≠ pk →
        aggregateGetOrCreate cls' table pks attrs' s1 = .ok (e2, s2) →
        e2 ≠ e1 := by
    intro s1 e1 hproj cls' attrs' pk' e2 s2 hproj' hne hok2 heq
    apply hne
    have hp2 := getOrCreate_pkProject cls' table pks attrs' pk' s1 e2 s2 hproj' hok2
    rw [heq, hproj] at hp2
    injection hp2 with hval
    exact hval.symm
  cases hq : sessionQuery s table pk with
  | cons ent rest =>
    cases rest with
    | nil =>
      refine ⟨ent, s, ?_, ?_, ?_, ?_⟩
      · simp [aggregateGetOrCreate, aggregateGet, h1, queryOne, hq]
      · simp [aggregateGetOrCreate, aggregateGet, h2, queryOne, hq]
      · have hmem : ent ∈ sessionQuery s table pk := by rw [hq]; simp
        have hmatch : entityMatches table pk ent = true := (List.mem_filter.mp hmem).2
        obtain ⟨-, hl⟩ := entityMatches_lookup hmatch
        exact pkProject_of_lookup pks pk ent.attrs (pkProject_map_fst pks attrs pk h1) hl
      · apply hdistinct
        have hmem : ent ∈ sessionQuery s table pk := by rw [hq]; simp
        have hmatch : entityMatches table pk ent = true := (List.mem_filter.mp hmem).2
        obtain ⟨-, hl⟩ := entityMatches_lookup hmatch
        exact pkProject_of_lookup pks pk ent.attrs (pkProject_map_fst pks attrs pk h1) hl
    | cons ent2 rest2 =>
      rw [hq] at huniq
      simp at huniq
  | nil =>
    have hproj : pkProject pks
        (⟨cls, table, some s.nextId, attrs⟩ : Entity).attrs = some pk := h1
    have hnew : entityMatches table pk ⟨cls, table, some s.nextId, attrs⟩ = true :=
      entityMatches_of_lookup table cls (some s.nextId) attrs pk
        (pkProject_lookup pks attrs pk h1)
    have hq1 : sessionQuery ⟨s.entities ++ [⟨cls, table, some s.nextId, attrs⟩], s.nextId + 1⟩
        table pk = [⟨cls, table, some s.nextId, attrs⟩] := by
      simp only [sessionQuery] at hq ⊢
      rw [List.filter_append, hq]
      simp [List.filter, hnew]
    refine ⟨⟨cls, table, some s.nextId, attrs⟩,
      ⟨s.entities ++ [⟨cls, table, some s.nextId, attrs⟩], s.nextId + 1⟩, ?_, ?_, hproj, ?_⟩
    · simp [aggregateGetOrCreate, aggregateGet, h1, queryOne, hq]
    · simp [aggregateGetOrCreate, aggregateGet, h2, queryOne, hq1]
    · exact hdistinct _ _ hproj

/-- Witness for C6: starting from the empty session, two get_or_create calls
with the key (uniqueid A, uniqueidtype C) return one and the same entity. -/
theorem getOrCreate_natural_key_witness :
    ∃ e1 s1, aggregateGetOrCreate "SECINFO" "secinfo" ["uniqueid", "uniqueidtype"]
        [("uniqueid", .pstr "A"), ("uniqueidtype", .pstr "C")] emptySession = .ok (e1, s1) ∧
      aggregateGetOrCreate "SECINFO" "secinfo" ["uniqueid", "uniqueidtype"]
        [("uniqueid", .pstr "A"), ("uniqueidtype", .pstr "C")] s1 = .ok (e1, s1) ∧
      pkProject ["uniqueid", "uniqueidtype"] e1.attrs =
        some [("uniqueid", .pstr "A"), ("uniqueidtype", .pstr "C")] ∧
      (∀ cls' attrs' pk' e2 s2,
        pkProject ["uniqueid", "uniqueidtype"] attrs' = some pk' →
        pk' ≠ [("uniqueid", .pstr "A"), ("uniqueidtype", .pstr "C")] →
        aggregateGetOrCreate cls' "secinfo" ["uniqueid", "uniqueidtype"] attrs' s1 =
          .ok (e2, s2) →
        e2 ≠ e1) :=
  getOrCreate_natural_key "SECINFO" "SECINFO" "secinfo" ["uniqueid", "uniqueidtype"]
    [("uniqueid", .pstr "A"), ("uniqueidtype", .pstr "C")]
    [("uniqueid", .pstr "A"), ("uniqueidtype", .pstr "C")]
    [("uniqueid", .pstr "A"), ("uniqueidtype", .pstr "C")]
    emptySession (by decide) (by decide) (by decide)

/-! # Tag dispatch through the module globals (C7)

Aggregate.from_etree resolves SubClass = globals()[element.tag] (models.py line
108).  The module's global namespace holds the mapped aggregate classes, but
also the module dunders, mixins, helpers and imports; only an absent name
raises KeyError (the spec's UnknownAggregateError).  A present name proceeds to
the SubClass._preflatten access of line 109: the globals carrying no
_preflatten attribute (mixins other than BANKTRAN, functions, imports,
constants, the dunder values) raise AttributeError right there, while the
declarative base Aggregate (which defines the full default hook protocol,
lines 120-134, and whose binding can even succeed on a childless element) and
the BANKTRAN mixin (which defines its own _preflatten, lines 581-611, but no
_postflatten) pass the dispatch step — so a present tag never raises the
unknown-tag KeyError, but neither does every non-mapped tag fail with one
fixed error. -/

def lowerChar (c : Char) : Char :=
  if 65 ≤ c.toNat ∧ c.toNat ≤ 90 then Char.ofNat (c.toNat + 32) else c

/-- Lowercasing as used for Python attribute and table names. -/
def lowerTag (s : String) : String := ⟨s.data.map lowerChar⟩

def secinfoClasses : List String :=
  ["SECINFO", "DEBTINFO", "MFINFO", "OPTINFO", "OTHERINFO", "STOCKINFO"]

def acctfromClasses : List String :=
  ["ACCTFROM", "BANKACCTFROM", "CCACCTFROM", "INVACCTFROM"]

def accttoClasses : List String :=
  ["ACCTTO", "BANKACCTTO", "CCACCTTO"]

def invtranClassesList : List String :=
  ["INVTRAN", "BUYDEBT", "BUYMF", "BUYOPT", "BUYOTHER", "BUYSTOCK", "CLOSUREOPT",
   "INCOME", "INVEXPENSE", "JRNLFUND", "JRNLSEC", "MARGININTEREST", "REINVEST",
   "RETOFCAP", "SELLDEBT", "SELLMF", "SELLOPT", "SELLOTHER", "SELLSTOCK",
   "SPLIT", "TRANSFER"]

def invposClasses : List String :=
  ["INVPOS", "POSDEBT", "POSMF", "POSOPT", "POSOTHER", "POSSTOCK"]

/-- Mapped aggregate classes of src/ofxtools/ofxalchemy/models.py. -/
def ofxalchemyAggregateNames : List String :=
  secinfoClasses ++ acctfromClasses ++ accttoClasses ++ invtranClassesList ++
    invposClasses ++
    ["LEDGERBAL", "AVAILBAL", "INVBAL", "BAL", "PORTION", "FIPORTION", "PAYEE",
     "STMTTRN", "INVBANKTRAN"]

/-- Non-mapped module globals of src/ofxtools/ofxalchemy/models.py that still
carry a _preflatten attribute: the declarative base Aggregate (full default
hook protocol) and the BANKTRAN mixin (own _preflatten, no _postflatten). -/
def ofxalchemyHookedGlobals : List String :=
  ["Aggregate", "BANKTRAN"]

/-- Module globals of src/ofxtools/ofxalchemy/models.py that are neither mapped
aggregate classes nor carry a _preflatten attribute: mixins, helpers, imports,
constants, and the module-level dunder names. -/
def ofxalchemyHooklessGlobals : List String :=
  ["Inheritor", "CURRENCY", "ORIGCURRENCY", "Balance", "SECID",
   "INVBUYSELL", "INVBUY", "INVSELL", "DBSession",
   "Column", "Boolean", "Enum", "Integer", "String", "Text", "ForeignKey",
   "ForeignKeyConstraint", "UniqueConstraint", "declarative_base",
   "as_declarative", "declared_attr", "has_inherited_table", "scoped_session",
   "sessionmaker", "relationship", "backref", "NoResultFound", "Numeric",
   "OFXDateTime", "LANG_CODES", "CURRENCY_CODES", "COUNTRY_CODES",
   "INV401KSOURCES", "ACCTTYPES", "INVSUBACCTS", "BUYTYPES", "SELLTYPES",
   "INCOMETYPES", "ASSETCLASSES", "sqlalchemy",
   "__name__", "__doc__", "__package__", "__file__", "__builtins__"]

inductive RegEntry where
  | aggregate (cls : String)
  | hooked (name : String)
  | hookless (name : String)
  deriving DecidableEq, Repr

def registryLookup (tag : String) : Option RegEntry :=
  if tag ∈ ofxalchemyAggregateNames then some (.aggregate tag)
  else if tag ∈ ofxalchemyHookedGlobals then some (.hooked tag)
  else if tag ∈ ofxalchemyHooklessGlobals then some (.hookless tag)
  else none

/-- Dispatch step of Aggregate.from_etree (models.py lines 107-109): the
globals() lookup and the first protocol access SubClass._preflatten.  An
absent tag raises KeyError; a global without a _preflatten attribute raises
AttributeError at the access; the mapped classes and the two non-mapped
globals that do carry a _preflatten (Aggregate, BANKTRAN) pass this step, and
binding continues with the object found under the literal tag. -/
def fromEtreeDispatch (e : Elem) : Except PyErr String :=
  match registryLookup e.tag with
  | none => .error (.keyError e.tag)
  | some (.hookless n) => .error (.attributeError n)
  | some (.hooked n) => .ok n
  | some (.aggregate cls) => .ok cls

/-- Counterexample to C7: CURRENCY names a module global that is not a mapped
aggregate schema (it is the currency mixin), yet binding an element tagged
CURRENCY does not fail with the unknown-tag KeyError — it fails with
AttributeError. -/
theorem currency_tag_not_unknown_aggregate :
    registryLookup "CURRENCY" = some (.hookless "CURRENCY") ∧
      fromEtreeDispatch ⟨"CURRENCY", none, []⟩ = .error (.attributeError "CURRENCY") ∧
      ∀ k, (Except.error (PyErr.attributeError "CURRENCY") : Except PyErr String) ≠
        .error (.keyError k) := by
  refine ⟨by decide, by decide, ?_⟩
  intro k hcontra
  injection hcontra with h
  exact PyErr.noConfusion h

/-- C7 (amended): a tag absent from the module's global namespace fails with
KeyError, the spec's UnknownAggregateError; a tag bound to any module global
never raises the unknown-tag error, even when that global is not a mapped
aggregate class (the CURRENCY mixin tag, for example, fails with
AttributeError instead); and a registered aggregate tag dispatches to the
class registered under exactly that literal tag. -/
theorem from_etree_dispatch_behavior :
    (∀ e : Elem, registryLookup e.tag = none →
      fromEtreeDispatch e = .error (.keyError e.tag)) ∧
      (∀ (e : Elem) (g : RegEntry), registryLookup e.tag = some g →
        ∀ k, fromEtreeDispatch e ≠ .error (.keyError k)) ∧
      (∀ (e : Elem) (cls : String), registryLookup e.tag = some (.aggregate cls) →
        fromEtreeDispatch e = .ok cls ∧ cls = e.tag) := by
  refine ⟨?_, ?_, ?_⟩
  · intro e h
    simp [fromEtreeDispatch, h]
  · intro e g h k
    cases g with
    | aggregate cls => simp [fromEtreeDispatch, h]
    | hooked n => simp [fromEtreeDispatch, h]
    | hookless n => simp [fromEtreeDispatch, h]
  · intro e cls h
    have hcls : cls = e.tag := by
      simp only [registryLookup] at h
      split at h
      · simp only [Option.some.injEq, RegEntry.aggregate.injEq] at h
        exact h.symm
      · split at h
        · exact absurd h (by simp)
        · split at h
          · exact absurd h (by simp)
          · exact absurd h (by simp)
    exact ⟨by simp [fromEtreeDispatch, h], hcls⟩

/-- Witness for C7 (amended): an unregistered tag fails with KeyError naming
it; the registered tag MFINFO dispatches to the MFINFO class. -/
theorem from_etree_dispatch_behavior_witness :
    fromEtreeDispatch ⟨"XYZZY", none, []⟩ = .error (.keyError "XYZZY") ∧
      fromEtreeDispatch ⟨"MFINFO", none, []⟩ = .ok "MFINFO" :=
  ⟨from_etree_dispatch_behavior.1 ⟨"XYZZY", none, []⟩ (by decide),
   (from_etree_dispatch_behavior.2.2 ⟨"MFINFO", none, []⟩ "MFINFO" (by decide)).1⟩

/-! # Flattening and generic construction (C8 support)

Element._flatten belongs to the parser, which is not under src/. -/

mutual

/-- Modelled from the spec (section 4.3 step 3): flattening collects every leaf
descendant as an attribute keyed by its lowercased tag (the Python attribute
name), recursing through sub-aggregate children. -/
def flattenChildren : List Elem → Attrs
  | [] => []
  | c :: cs => flattenOne c ++ flattenChildren cs

def flattenOne : Elem → Attrs
  | ⟨tag, text, children⟩ =>
    match children with
    | [] => [(lowerTag tag, pyOfText text)]
    | _ :: _ => flattenChildren children

end

def flattenElem (e : Elem) : Attrs := flattenChildren e.children

/-- Dictionary update attributes.update(extra_attrs) of models.py line 112. -/
def updateAttrs (a b : Attrs) : Attrs :=
  b.foldl (fun acc kv => setAttr acc kv.1 kv.2) a

/-- Joined-table hierarchies are queried through their base table; single-table
classes through their own (lowercased) name. -/
def tableOfCls (cls : String) : String :=
  if cls ∈ secinfoClasses then "secinfo"
  else if cls ∈ acctfromClasses then "acctfrom"
  else if cls ∈ accttoClasses then "acctto"
  else if cls ∈ invtranClassesList then "invtran"
  else if cls ∈ invposClasses then "invpos"
  else lowerTag cls

/-- Primary keys per class: the pks lists declared on the Inheritor hierarchies
and the primary-key columns of the single-table classes. -/
def pksOfCls (cls : String) : List String :=
  if cls ∈ secinfoClasses then ["uniqueid", "uniqueidtype"]
  else if cls ∈ invtranClassesList then ["acctfrom_id", "fitid"]
  else if cls ∈ invposClasses then ["acctfrom_id", "secinfo_id", "dtasof"]
  else if cls = "BANKACCTFROM" ∨ cls = "BANKACCTTO" then ["bankid", "acctid"]
  else if cls = "CCACCTFROM" ∨ cls = "CCACCTTO" then ["acctid"]
  else if cls = "INVACCTFROM" then ["brokerid", "acctid"]
  else if cls = "PORTION" then ["mfinfo_id", "assetclass"]
  else if cls = "FIPORTION" then ["mfinfo_id", "fiassetclass"]
  else if cls = "PAYEE" then ["name"]
  else if cls = "STMTTRN" ∨ cls = "INVBANKTRAN" then ["acctfrom_id", "fitid"]
  else if cls = "BAL" then ["acctfrom_id", "dtasof", "name"]
  else if cls = "LEDGERBAL" ∨ cls = "AVAILBAL" ∨ cls = "INVBAL" then
    ["acctfrom_id", "dtasof"]
  else []

/-- Default-hook tail of Aggregate.from_etree for a mapped class (models.py
lines 109-118): flatten, merge the extra attributes, then construct a
transient instance or route through get_or_create.  Class-specific pre/post
hooks are modelled separately where a claim depends on them (SECID, OPTINFO,
ORIGCURRENCY above). -/
def bindMappedDefault (cls : String) (e : Elem) (getOrCreate : Bool) (extra : Attrs)
    (s : Session) : Except PyErr (Entity × Session) :=
  let attrs := updateAttrs (flattenElem e) extra
  if getOrCreate then aggregateGetOrCreate cls (tableOfCls cls) (pksOfCls cls) attrs s
  else .ok (⟨cls, tableOfCls cls, none, attrs⟩, s)

/-- BANKTRAN._preflatten (models.py lines 581-611): replace BANKACCTTO /
CCACCTTO / PAYEE children with foreign-key references.  The if tests use
Python truthiness, under which a found element with no children counts as
absent.  The children it binds carry mapped class tags and take the
default-hook path.  In the BANKACCTTO branch the source calls
element.remove(instance) — the Aggregate instance, never one of the element's
children — so list.remove raises ValueError; the CCACCTTO and PAYEE branches
remove the child element itself. -/
def banktranPreflatten (element : Elem) (extra : Attrs) (s : Session) :
    Except PyErr (Elem × Attrs × Session) :=
  let acctStep : Except PyErr (Elem × Attrs × Session) :=
    match findChild "BANKACCTTO" element with
    | some b =>
      if !b.children.isEmpty then
        match bindMappedDefault b.tag b true [] s with
        | .error err => .error err
        | .ok _ => .error (.valueError "list.remove(x): x not in list")
      else
        match findChild "CCACCTTO" element with
        | some c =>
          if !c.children.isEmpty then
            match bindMappedDefault c.tag c true [] s with
            | .error err => .error err
            | .ok (inst, s2) =>
              .ok ({ element with children := removeFirstEq element.children c },
                   setAttr extra "acctto_id" (pyOfId inst.eid), s2)
          else .ok (element, extra, s)
        | none => .ok (element, extra, s)
    | none =>
      match findChild "CCACCTTO" element with
      | some c =>
        if !c.children.isEmpty then
          match bindMappedDefault c.tag c true [] s with
          | .error err => .error err
          | .ok (inst, s2) =>
            .ok ({ element with children := removeFirstEq element.children c },
                 setAttr extra "acctto_id" (pyOfId inst.eid), s2)
        else .ok (element, extra, s)
      | none => .ok (element, extra, s)
  match acctStep with
  | .error err => .error err
  | .ok (element2, extra2, s2) =>
    match findChild "PAYEE" element2 with
    | some p =>
      if !p.children.isEmpty then
        match bindMappedDefault p.tag p true [] s2 with
        | .error err => .error err
        | .ok (inst, s3) =>
          .ok ({ element2 with children := removeFirstEq element2.children p },
               setAttr extra2 "payee_name" ((lookupAttr inst.attrs "name").getD .pnone), s3)
      else .ok (element2, extra2, s2)
    | none => .ok (element2, extra2, s2)

/-- Aggregate.from_etree (models.py lines 101-118): dispatch by tag through the
module globals and continue per the object found.  A mapped class takes the
default-hook path; a hookless global dies at the _preflatten access; the
declarative base Aggregate runs its default hooks but is unmapped, so
get_or_create dies looking up its missing table while the plain constructor
accepts no attributes (it succeeds only when the flattened attribute set is
empty, otherwise TypeError); BANKTRAN runs its own _preflatten and then dies
at the missing _postflatten attribute. -/
def aggFromEtreeModel (e : Elem) (getOrCreate : Bool) (extra : Attrs) (s : Session) :
    Except PyErr (Entity × Session) :=
  match registryLookup e.tag with
  | none => .error (.keyError e.tag)
  | some (.hookless n) => .error (.attributeError n)
  | some (.aggregate cls) => bindMappedDefault cls e getOrCreate extra s
  | some (.hooked n) =>
    if n = "Aggregate" then
      let attrs := updateAttrs (flattenElem e) extra
      if getOrCreate then .error (.attributeError "__table__")
      else if attrs.isEmpty then .ok (⟨"Aggregate", "aggregate", none, []⟩, s)
      else .error (.typeError "invalid keyword argument")
    else
      match banktranPreflatten e extra s with
      | .error err => .error err
      | .ok _ => .error (.attributeError "_postflatten")

/-- Loop body of MFINFO.from_etree: construct every row of one detached
breakdown list with the parent's id as mfinfo_id, via get_or_create. -/
def mfinfoPortionLoop (portions : List Elem) (mfid : Option Nat) (s : Session) :
    Except PyErr Session :=
  match portions with
  | [] => .ok s
  | p :: ps =>
    match aggFromEtreeModel p true [("mfinfo_id", pyOfId mfid)] s with
    | .error err => .error err
    | .ok (_, s2) => mfinfoPortionLoop ps mfid s2

def mfinfoClassLoop (mfclasses : List Elem) (mfid : Option Nat) (s : Session) :
    Except PyErr Session :=
  match mfclasses with
  | [] => .ok s
  | mc :: mcs =>
    match mfinfoPortionLoop mc.children mfid s with
    | .error err => .error err
    | .ok s2 => mfinfoClassLoop mcs mfid s2

/-- Tail of MFINFO.from_etree: construct the parent first, then every row of
the saved breakdown lists with an explicit reference to the parent's id. -/
def mfinfoRest (mfclasses : List Elem) (elem2 : Elem) (getOrCreate : Bool)
    (extra : Attrs) (s : Session) : Except PyErr (Entity × Session) :=
  match aggFromEtreeModel elem2 getOrCreate extra s with
  | .error err => .error err
  | .ok (inst, s2) =>
    match mfinfoClassLoop mfclasses inst.eid s2 with
    | .error err => .error err
    | .ok s3 => .ok (inst, s3)

/-- MFINFO.from_etree (models.py lines 405-439): find MFASSETCLASS and
FIMFASSETCLASS before any removal; detach MFASSETCLASS into the saved list;
then the source executes mfassetclass.append(fimfassetclass) — appending the
FIMFASSETCLASS element as a child of the MFASSETCLASS element (or raising
AttributeError on None when MFASSETCLASS is absent) where the comment announces
saving it into the list mfassetclasses — and removes it from the tree; finally
the parent is constructed and the saved rows are instantiated with the
parent's id. -/
def mfinfoFromEtree (elem : Elem) (getOrCreate : Bool) (extra : Attrs) (s : Session) :
    Except PyErr (Entity × Session) :=
  let mfa := findChild "MFASSETCLASS" elem
  let fimfa := findChild "FIMFASSETCLASS" elem
  let step1 : List Elem × Elem :=
    match mfa with
    | some a => ([a], { elem with children := removeFirstEq elem.children a })
    | none => ([], elem)
  match fimfa with
  | some f =>
    match mfa with
    | none => .error (.attributeError "NoneType has no attribute append")
    | some a =>
      mfinfoRest [{ a with children := a.children ++ [f] }]
        { step1.2 with children := removeFirstEq step1.2.children f }
        getOrCreate extra s
  | none => mfinfoRest step1.1 step1.2 getOrCreate extra s

/-- MFINFO carrying only a FIMFASSETCLASS breakdown with one FIPORTION row. -/
def mfinfoFimfaOnly : Elem :=
  ⟨"MFINFO", none,
   [⟨"SECINFO", none,
     [⟨"SECID", none,
       [⟨"UNIQUEID", some "11", []⟩, ⟨"UNIQUEIDTYPE", some "CUSIP", []⟩]⟩,
      ⟨"SECNAME", some "Fund", []⟩]⟩,
    ⟨"FIMFASSETCLASS", none,
     [⟨"FIPORTION", none,
       [⟨"FIASSETCLASS", some "DOMESTICBOND", []⟩, ⟨"PERCENT", some "100", []⟩]⟩]⟩]⟩

/-- MFINFO carrying only an MFASSETCLASS breakdown with one PORTION row. -/
def mfinfoMfaOnly : Elem :=
  ⟨"MFINFO", none,
   [⟨"SECINFO", none,
     [⟨"SECID", none,
       [⟨"UNIQUEID", some "11", []⟩, ⟨"UNIQUEIDTYPE", some "CUSIP", []⟩]⟩,
      ⟨"SECNAME", some "Fund", []⟩]⟩,
    ⟨"MFASSETCLASS", none,
     [⟨"PORTION", none,
       [⟨"ASSETCLASS", some "DOMESTICBOND", []⟩, ⟨"PERCENT", some "100", []⟩]⟩]⟩]⟩

/-- MFINFO carrying both breakdown lists. -/
def mfinfoBoth : Elem :=
  ⟨"MFINFO", none,
   [⟨"SECINFO", none,
     [⟨"SECID", none,
       [⟨"UNIQUEID", some "11", []⟩, ⟨"UNIQUEIDTYPE", some "CUSIP", []⟩]⟩,
      ⟨"SECNAME", some "Fund", []⟩]⟩,
    ⟨"MFASSETCLASS", none,
     [⟨"PORTION", none,
       [⟨"ASSETCLASS", some "DOMESTICBOND", []⟩, ⟨"PERCENT", some "100", []⟩]⟩]⟩,
    ⟨"FIMFASSETCLASS", none,
     [⟨"FIPORTION", none,
       [⟨"FIASSETCLASS", some "INTLBOND", []⟩, ⟨"PERCENT", some "100", []⟩]⟩]⟩]⟩

/-- C8 (code bug): MFASSETCLASS rows are detached, the parent is constructed
first, and each PORTION is constructed with mfinfo_id referencing the parent —
but FIMFASSETCLASS rows are lost: with only FIMFASSETCLASS present binding
crashes with AttributeError (the source appends to the element variable
mfassetclass, None here, instead of the list mfassetclasses), and with both
lists present the FIMFASSETCLASS element ends up a child of the MFASSETCLASS
element, so the row loop dispatches on the tag FIMFASSETCLASS and dies with
KeyError after the PORTIONs; no FIPORTION is ever constructed. -/
theorem mfinfo_breakdown_rows :
    mfinfoFromEtree mfinfoMfaOnly true [] emptySession =
        .ok (⟨"MFINFO", "secinfo", some 0,
              [("uniqueid", .pstr "11"), ("uniqueidtype", .pstr "CUSIP"),
               ("secname", .pstr "Fund")]⟩,
             ⟨[⟨"MFINFO", "secinfo", some 0,
                [("uniqueid", .pstr "11"), ("uniqueidtype", .pstr "CUSIP"),
                 ("secname", .pstr "Fund")]⟩,
               ⟨"PORTION", "portion", some 1,
                [("assetclass", .pstr "DOMESTICBOND"), ("percent", .pstr "100"),
                 ("mfinfo_id", .pint 0)]⟩], 2⟩) ∧
      mfinfoFromEtree mfinfoFimfaOnly true [] emptySession =
        .error (.attributeError "NoneType has no attribute append") ∧
      mfinfoFromEtree mfinfoBoth true [] emptySession =
        .error (.keyError "FIMFASSETCLASS") := by
  refine ⟨by decide, by decide, by decide⟩
